import Mathlib

/-!
Verification of the iterative question-answering workflow
(`src/graph/workflow.py`, `src/graph/memory.py`).

The Python code is shallowly embedded: every node function, the router
`should_continue`, the JSON extraction helper `extract_json_from_text`
and the `MemoryManager` session store are translated into executable
Lean definitions.  External collaborators (the language model and the
web-search provider) are passed in as explicit oracle arguments, per
the spec's black-box treatment.  Python dynamic values appearing in the
workflow state are modelled by the `JsonVal` type; Python truthiness,
the `in` operator, `>=` comparison against an int, and `', '.join` are
modelled by `truthy`, `pyContains`, `pyGe7` and `pyJoinCommaVal`,
including the `TypeError` cases, which surface as `Except.error`.
`json.loads` is modelled by `jsonLoads` on the JSON fragment the
workflow exercises (objects, arrays, strings with the common escapes,
integers, booleans, null); floats, `\u` escapes and the NaN/Infinity
extensions are outside the modelled fragment.
-/

/-- Dynamic (JSON-shaped) Python values stored in the workflow state. -/
inductive JsonVal where
  | jnull : JsonVal
  | jbool (b : Bool) : JsonVal
  | jnum (n : Int) : JsonVal
  | jstr (s : String) : JsonVal
  | jarr (elts : List JsonVal) : JsonVal
  | jobj (fields : List (String × JsonVal)) : JsonVal
deriving Repr

/-- Dictionary lookup (first binding wins; `dinsert` keeps keys unique). -/
def dget : List (String × JsonVal) → String → Option JsonVal
  | [], _ => none
  | (k, v) :: rest, key => if k = key then some v else dget rest key

/-- Key-presence test, modelling `k in d` for a Python dict. -/
def dhas (d : List (String × JsonVal)) (key : String) : Bool :=
  (dget d key).isSome

/-- Dict assignment `d[k] = v`: replace in place if present, else append
(mirrors CPython insertion-order semantics). -/
def dinsert : List (String × JsonVal) → String → JsonVal → List (String × JsonVal)
  | [], key, v => [(key, v)]
  | (k, w) :: rest, key, v =>
      if k = key then (k, v) :: rest else (k, w) :: dinsert rest key v

/-- Python truthiness of a `JsonVal`. -/
def truthy : JsonVal → Bool
  | .jnull => false
  | .jbool b => b
  | .jnum n => decide (n ≠ 0)
  | .jstr s => decide (s ≠ "")
  | .jarr l => !l.isEmpty
  | .jobj d => !d.isEmpty

/-- Substring test on character lists (models Python `sub in s` for strings). -/
def containsSubL (needle : List Char) : List Char → Bool
  | [] => needle.isEmpty
  | c :: rest => needle.isPrefixOf (c :: rest) || containsSubL needle rest

/-- Python `key in v`:  dict → key membership, str → substring test,
list → element membership (string equality; other element types compare
unequal to a string); int/bool/None raise `TypeError`. -/
def pyContains (v : JsonVal) (key : String) : Except Unit Bool :=
  match v with
  | .jobj d => .ok (dhas d key)
  | .jstr s => .ok (containsSubL key.toList s.toList)
  | .jarr l => .ok (l.any (fun e => match e with | .jstr t => decide (t = key) | _ => false))
  | _ => .error ()

/-- Python `v >= 7`: ints compare numerically, `bool` coerces to 0/1,
anything else raises `TypeError`. -/
def pyGe7 : JsonVal → Except Unit Bool
  | .jnum n => .ok (decide (n ≥ 7))
  | .jbool b => .ok (decide ((if b then (1 : Int) else 0) ≥ 7))
  | _ => .error ()

/-- `sep.join`, mirroring Python `str.join` on a list of strings. -/
def joinSep (sep : String) : List String → String
  | [] => ""
  | [x] => x
  | x :: y :: rest => x ++ sep ++ joinSep sep (y :: rest)

/-- Coerce a list of JSON values to strings, failing (like `str.join`)
on any non-string element. -/
def asStrList : List JsonVal → Option (List String)
  | [] => some []
  | .jstr s :: rest =>
      match asStrList rest with
      | some l => some (s :: l)
      | none => none
  | _ :: _ => none

/-- Python `', '.join(v)`: joins a list of strings, the characters of a
string, or the keys of a dict; raises `TypeError` otherwise (including
lists with non-string elements). -/
def pyJoinCommaVal : JsonVal → Except Unit String
  | .jstr s => .ok (joinSep ", " (s.toList.map (fun c => String.mk [c])))
  | .jarr l =>
      match asStrList l with
      | some strs => .ok (joinSep ", " strs)
      | none => .error ()
  | .jobj d => .ok (joinSep ", " (d.map (fun kv => kv.fst)))
  | _ => .error ()

/-- JSON whitespace characters accepted by `json.loads`. -/
def isJsonWs (c : Char) : Bool :=
  c = ' ' || c = '\t' || c = '\n' || c = '\r'

/-- Whitespace for the `\s` regex class (adds form feed and vertical tab). -/
def isRegexWs (c : Char) : Bool :=
  c = ' ' || c = '\t' || c = '\n' || c = '\r' || c = '\x0c' || c = '\x0b'

/-- Decimal digit test. -/
def isDigitCh (c : Char) : Bool := '0' ≤ c && c ≤ '9'

/-- Body of a JSON string after the opening quote: returns the decoded
characters and the input remaining after the closing quote. -/
def parseStringBody : List Char → Option (List Char × List Char)
  | [] => none
  | c :: rest =>
      if c = '"' then some ([], rest)
      else if c = '\\' then
        match rest with
        | [] => none
        | e :: rest2 =>
            let esc : Option Char :=
              if e = '"' then some '"'
              else if e = '\\' then some '\\'
              else if e = '/' then some '/'
              else if e = 'b' then some (Char.ofNat 8)
              else if e = 'f' then some (Char.ofNat 12)
              else if e = 'n' then some '\n'
              else if e = 'r' then some '\r'
              else if e = 't' then some '\t'
              else none
            match esc with
            | some ch =>
                match parseStringBody rest2 with
                | some (s, r) => some (ch :: s, r)
                | none => none
            | none => none
      else
        match parseStringBody rest with
        | some (s, r) => some (c :: s, r)
        | none => none

/-- Greedily consume decimal digits, accumulating their value. -/
def parseDigitsAux : Nat → List Char → Nat × List Char
  | acc, [] => (acc, [])
  | acc, c :: rest =>
      if isDigitCh c then parseDigitsAux (acc * 10 + (c.toNat - 48)) (c :: rest).tail
      else (acc, c :: rest)

/-- JSON integer after an optional minus sign was noted: `0` alone or a
nonzero digit followed by digits; floats/exponents are outside the
modelled fragment and fail. -/
def parseNumTail (neg : Bool) : List Char → Option (JsonVal × List Char)
  | [] => none
  | c :: rest =>
      if !isDigitCh c then none
      else
        let (v, r) :=
          if c = '0' then (0, rest)
          else parseDigitsAux (c.toNat - 48) rest
        match r with
        | '.' :: _ => none
        | 'e' :: _ => none
        | 'E' :: _ => none
        | _ => some (.jnum (if neg then -(v : Int) else (v : Int)), r)

mutual

/-- One JSON value (leading whitespace allowed), fuel-indexed. -/
def parseValue : Nat → List Char → Option (JsonVal × List Char)
  | 0, _ => none
  | Nat.succ fuel, cs =>
      match cs.dropWhile isJsonWs with
      | [] => none
      | '"' :: rest =>
          match parseStringBody rest with
          | some (s, r) => some (.jstr (String.mk s), r)
          | none => none
      | '\x7b' :: rest =>
          match (rest.dropWhile isJsonWs) with
          | '\x7d' :: r2 => some (.jobj [], r2)
          | _ => parseMembers fuel [] rest
      | '[' :: rest =>
          match (rest.dropWhile isJsonWs) with
          | ']' :: r2 => some (.jarr [], r2)
          | _ => parseElems fuel [] rest
      | '-' :: rest => parseNumTail true rest
      | 't' :: 'r' :: 'u' :: 'e' :: rest => some (.jbool true, rest)
      | 'f' :: 'a' :: 'l' :: 's' :: 'e' :: rest => some (.jbool false, rest)
      | 'n' :: 'u' :: 'l' :: 'l' :: rest => some (.jnull, rest)
      | c :: rest => if isDigitCh c then parseNumTail false (c :: rest) else none

/-- Members of a JSON object after `\x7b` (at least one member pending). -/
def parseMembers : Nat → List (String × JsonVal) → List Char → Option (JsonVal × List Char)
  | 0, _, _ => none
  | Nat.succ fuel, acc, cs =>
      match cs.dropWhile isJsonWs with
      | '"' :: rest =>
          match parseStringBody rest with
          | some (k, r1) =>
              match r1.dropWhile isJsonWs with
              | ':' :: r2 =>
                  match parseValue fuel r2 with
                  | some (v, r3) =>
                      let acc2 := dinsert acc (String.mk k) v
                      match r3.dropWhile isJsonWs with
                      | ',' :: r4 => parseMembers fuel acc2 r4
                      | '\x7d' :: r4 => some (.jobj acc2, r4)
                      | _ => none
                  | none => none
              | _ => none
          | none => none
      | _ => none

/-- Elements of a JSON array after `[` (at least one element pending). -/
def parseElems : Nat → List JsonVal → List Char → Option (JsonVal × List Char)
  | 0, _, _ => none
  | Nat.succ fuel, acc, cs =>
      match parseValue fuel cs with
      | some (v, r1) =>
          match r1.dropWhile isJsonWs with
          | ',' :: r2 => parseElems fuel (acc ++ [v]) r2
          | ']' :: r2 => some (.jarr (acc ++ [v]), r2)
          | _ => none
      | none => none

end

/-- `json.loads` on the modelled fragment: one value, then only
trailing whitespace ("Extra data" otherwise). -/
def jsonLoads (s : String) : Option JsonVal :=
  match parseValue (s.toList.length + 1) s.toList with
  | some (v, rest) => if (rest.dropWhile isJsonWs).isEmpty then some v else none
  | none => none

/-- The three-backtick fence marker of the first regex in
`extract_json_from_text`. -/
def fenceMarker : List Char := "```".toList

/-- After the closing brace, the regex requires whitespace then a
closing fence. -/
def fenceClose (cs : List Char) : Bool :=
  fenceMarker.isPrefixOf (cs.dropWhile isRegexWs)

/-- Lazy `.*?` step of the fenced regex: find the first closing brace
whose tail is whitespace followed by a closing fence; returns the body
before that brace and the input after it. -/
def findFenceBody : List Char → Option (List Char × List Char)
  | [] => none
  | c :: rest =>
      if c = '\x7d' && fenceClose rest then some ([], rest)
      else
        match findFenceBody rest with
        | some (b, r) => some (c :: b, r)
        | none => none

/-- One attempt of the fenced regex anchored at the current position:
literal three backticks, optional literal `json`, greedy whitespace,
then the lazily captured brace group. -/
def tryFenceAt (cs : List Char) : Option String :=
  if fenceMarker.isPrefixOf cs then
    let cs1 := cs.drop 3
    let cs2 := if ("json".toList).isPrefixOf cs1 then cs1.drop 4 else cs1
    match cs2.dropWhile isRegexWs with
    | '\x7b' :: rest =>
        match findFenceBody rest with
        | some (body, _) => some (String.mk ('\x7b' :: body ++ ['\x7d']))
        | none => none
    | _ => none
  else none

/-- Leftmost match of the fenced regex, scanning start positions left
to right (models `re.search` of the first pattern in
`extract_json_from_text`). -/
def findFencedL : List Char → Option String
  | [] => none
  | c :: rest =>
      match tryFenceAt (c :: rest) with
      | some s => some s
      | none => findFencedL rest

/-- Character allowed by the `[^\x7b\x7d]` classes of the second regex. -/
def nonBrace (c : Char) : Bool := c ≠ '\x7b' && c ≠ '\x7d'

/-- Matcher for the brace regex after the opening brace: a run of
non-brace characters, then any number of singly nested `\x7b...\x7d`
groups each followed by a run of non-brace characters, then the closing
brace.  Returns the matched body and the input after the close. -/
def balScan : Nat → List Char → Option (List Char × List Char)
  | 0, _ => none
  | Nat.succ fuel, cs =>
      let a := cs.takeWhile nonBrace
      match cs.dropWhile nonBrace with
      | '\x7d' :: r => some (a, r)
      | '\x7b' :: r =>
          let b := r.takeWhile nonBrace
          match r.dropWhile nonBrace with
          | '\x7d' :: r2 =>
              match balScan fuel r2 with
              | some (c, r3) => some (a ++ '\x7b' :: b ++ '\x7d' :: c, r3)
              | none => none
          | _ => none
      | _ => none

/-- Leftmost match of the second regex of `extract_json_from_text`
(first balanced brace-delimited substring, one nesting level tolerated). -/
def findBracesL : List Char → Option String
  | [] => none
  | c :: rest =>
      if c = '\x7b' then
        match balScan (rest.length + 1) rest with
        | some (body, _) => some (String.mk ('\x7b' :: body ++ ['\x7d']))
        | none => findBracesL rest
      else findBracesL rest

/-- `extract_json_from_text` (src/graph/workflow.py, lines 118-142):
try the fenced block, then the first balanced brace substring, then the
whole text; each attempt is kept only if `json.loads` succeeds on it.
`none` stands for the Python `return None` fallthrough. -/
def extract_json_from_text (text : String) : Option JsonVal :=
  match (findFencedL text.toList).bind jsonLoads with
  | some v => some v
  | none =>
      match (findBracesL text.toList).bind jsonLoads with
      | some v => some v
      | none => jsonLoads text

/-- The workflow state (`QAState` TypedDict, `total=False`): every key
may be absent, hence every field is an `Option`. -/
structure QAState where
  question : Option String := none
  draft_answer : Option String := none
  evaluation : Option JsonVal := none
  final_answer : Option String := none
  reflections : Option (List String) := none
  search_results : Option String := none
  iteration_count : Option Int := none
  max_iterations : Option Int := none
deriving Repr

/-- A partial-state patch returned by a node; absent keys leave the
corresponding state field unchanged on merge.  No node ever writes
`question` or `max_iterations`, so the patch has no such fields. -/
structure Patch where
  draft_answer : Option String := none
  evaluation : Option JsonVal := none
  final_answer : Option String := none
  reflections : Option (List String) := none
  search_results : Option String := none
  iteration_count : Option Int := none
deriving Repr

/-- Merge one patch field over the state field. -/
def mergeField {α : Type} (p s : Option α) : Option α :=
  match p with
  | some v => some v
  | none => s

/-- LangGraph merge semantics: keys present in the patch override the
state, all other state fields are kept. -/
def applyPatch (s : QAState) (p : Patch) : QAState :=
  { s with
    draft_answer := mergeField p.draft_answer s.draft_answer
    evaluation := mergeField p.evaluation s.evaluation
    final_answer := mergeField p.final_answer s.final_answer
    reflections := mergeField p.reflections s.reflections
    search_results := mergeField p.search_results s.search_results
    iteration_count := mergeField p.iteration_count s.iteration_count }

/-- `generate_answer_node` (workflow.py, lines 50-82).  The LLM call is
external; its response text is the `response` argument (the prompt is a
function of the state absorbed into the oracle). -/
def generate_answer_node (state : QAState) (response : String) : Patch :=
  { draft_answer := some response
    iteration_count := some (state.iteration_count.getD 0 + 1) }

/-- One Tavily search result: a dict whose `content`/`url` keys may be
absent (the code reads them with `.get`). -/
structure SearchResult where
  content : Option String := none
  url : Option String := none
deriving Repr

/-- Formatting of search results (workflow.py, lines 102-108):
numbered blocks of content plus source URL joined by blank lines. -/
def format_search_results (results : List SearchResult) : String :=
  joinSep "\n\n"
    ((results.enumFrom 1).map
      (fun p =>
        Nat.repr p.fst ++ ". " ++ (p.snd.content.getD "") ++
          "\nSource: " ++ (p.snd.url.getD "N/A")))

/-- `search_tool_node` (workflow.py, lines 85-115).  The collaborator
outcome is external: `.error` models any raised exception (including
timeouts), `.ok results` a returned result list. -/
def search_tool_node (_state : QAState) (outcome : Except Unit (List SearchResult)) : Patch :=
  match outcome with
  | .ok results => { search_results := some (format_search_results results) }
  | .error _ => { search_results := some "Search unavailable" }

/-- Fallback evaluation record (workflow.py, lines 191-207), built when
the model response could not be parsed into a keyed record. -/
def fallback_evaluation (state : QAState) : JsonVal :=
  let iteration : Int := state.iteration_count.getD 1
  let draft_len : Nat := (state.draft_answer.getD "").length
  let fallback_score : Nat := min 10 (max 5 (draft_len / 200))
  .jobj
    [("score", .jnum (fallback_score : Int)),
     ("is_acceptable", .jbool (decide (iteration ≥ 2) || decide (fallback_score ≥ 7))),
     ("strengths", .jarr [.jstr "Answer provided"]),
     ("weaknesses", if fallback_score ≥ 7 then .jarr [] else .jarr [.jstr "Could be more detailed"]),
     ("suggestions", if fallback_score ≥ 7 then .jarr [] else .jarr [.jstr "Add more examples"]),
     ("needs_search", .jbool false)]

/-- `evaluate_answer_node` (workflow.py, lines 145-207): extract a JSON
value from the model response; if it is truthy and contains the keys
`score` and `is_acceptable` (short-circuit `all`, Python `in`,
which raises `TypeError` on a bare number or boolean - the `.error`
case), store it unchanged; otherwise store the fallback record. -/
def evaluate_answer_node (state : QAState) (response : String) : Except Unit Patch :=
  match extract_json_from_text response with
  | none => .ok { evaluation := some (fallback_evaluation state) }
  | some ev =>
      if truthy ev then
        match pyContains ev "score" with
        | .error _ => .error ()
        | .ok hasScore =>
            if hasScore then
              match pyContains ev "is_acceptable" with
              | .error _ => .error ()
              | .ok hasAcc =>
                  if hasAcc then .ok { evaluation := some ev }
                  else .ok { evaluation := some (fallback_evaluation state) }
            else .ok { evaluation := some (fallback_evaluation state) }
      else .ok { evaluation := some (fallback_evaluation state) }

/-- `reflection_node` (workflow.py, lines 210-233): build a critique
from the evaluation's weaknesses/suggestions and append it to the
reflections.  `.get`/`join` on ill-shaped values raise (`.error`). -/
def reflection_node (state : QAState) : Except Unit Patch :=
  match state.evaluation.getD (.jobj []) with
  | .jobj d =>
      let base := "Iteration " ++ toString (state.iteration_count.getD 0) ++ ": "
      let wv := (dget d "weaknesses").getD .jnull
      let sv := (dget d "suggestions").getD .jnull
      let step1 : Except Unit String :=
        if truthy wv then
          match pyJoinCommaVal wv with
          | .ok j => .ok (base ++ "Address: " ++ j ++ ". ")
          | .error _ => .error ()
        else .ok base
      match step1 with
      | .error _ => .error ()
      | .ok r1 =>
          let step2 : Except Unit String :=
            if truthy sv then
              match pyJoinCommaVal sv with
              | .ok j => .ok (r1 ++ "Improve: " ++ j)
              | .error _ => .error ()
            else .ok r1
          match step2 with
          | .error _ => .error ()
          | .ok r2 =>
              let r3 :=
                if !truthy wv && !truthy sv then
                  r2 ++ "Continue improving clarity and completeness"
                else r2
              .ok { reflections := some ((state.reflections.getD []) ++ [r3]) }
  | _ => .error ()

/-- `finalize_answer_node` (workflow.py, lines 236-255): the polished
model response becomes the final answer. -/
def finalize_answer_node (_state : QAState) (response : String) : Patch :=
  { final_answer := some response }

/-- `should_continue` (workflow.py, lines 259-284).  Decision order:
iteration bound, then acceptability (Python truthiness of
`is_acceptable` and `>= 7` on `score`, which raises on non-numeric,
non-bool scores), then search need gated on falsy `search_results`,
else reflect.  A non-dict `evaluation` raises on `.get` (`.error`),
but only after the iteration bound was checked. -/
def should_continue (state : QAState) : Except Unit String :=
  let iteration_count : Int := state.iteration_count.getD 0
  let max_iterations : Int := state.max_iterations.getD 3
  if iteration_count ≥ max_iterations then .ok "finalize"
  else
    match state.evaluation.getD (.jobj []) with
    | .jobj d =>
        let acc := (dget d "is_acceptable").getD (.jbool false)
        let next3 : Except Unit String :=
          if truthy ((dget d "needs_search").getD (.jbool false))
              && decide (state.search_results.getD "" = "") then
            .ok "search"
          else .ok "reflect"
        if truthy acc then
          match pyGe7 ((dget d "score").getD (.jnum 0)) with
          | .error _ => .error ()
          | .ok ge7 => if ge7 then .ok "finalize" else next3
        else next3
    | _ => .error ()

/-- The external collaborators, as deterministic functions of the state
handed to the corresponding node (the prompts built by the nodes are
functions of the state, so this composition loses no generality). -/
structure Oracles where
  genResponse : QAState → String
  searchOutcome : QAState → Except Unit (List SearchResult)
  evalResponse : QAState → String
  finalResponse : QAState → String

/-- Outcome of driving the compiled graph: normal termination with the
final merged state and the trace of executed node names, an abort from
an uncaught node exception, or exhausted fuel (the graph itself has no
step bound; fuel only makes the interpreter total). -/
inductive RunOutcome where
  | ok (s : QAState) (trace : List String) : RunOutcome
  | aborted (trace : List String) : RunOutcome
  | fuelOut (trace : List String) : RunOutcome
deriving Repr

/-- Prefix the executed-node trace of an outcome. -/
def prependTrace (pre : List String) : RunOutcome → RunOutcome
  | .ok s tr => .ok s (pre ++ tr)
  | .aborted tr => .aborted (pre ++ tr)
  | .fuelOut tr => .fuelOut (pre ++ tr)

/-- The engine loop of the compiled graph (`build_workflow`,
workflow.py, lines 288-322): generate, evaluate, then route to search
or reflect (both looping back to generate) or finalize (terminal). -/
def runAux (o : Oracles) : Nat → QAState → RunOutcome
  | 0, _ => .fuelOut []
  | Nat.succ fuel, s =>
      let s1 := applyPatch s (generate_answer_node s (o.genResponse s))
      match evaluate_answer_node s1 (o.evalResponse s1) with
      | .error _ => .aborted ["generate_answer"]
      | .ok p =>
          let s2 := applyPatch s1 p
          match should_continue s2 with
          | .error _ => .aborted ["generate_answer", "evaluate"]
          | .ok route =>
              if route = "finalize" then
                .ok (applyPatch s2 (finalize_answer_node s2 (o.finalResponse s2)))
                  ["generate_answer", "evaluate", "finalize"]
              else if route = "search" then
                prependTrace ["generate_answer", "evaluate", "search"]
                  (runAux o fuel (applyPatch s2 (search_tool_node s2 (o.searchOutcome s2))))
              else
                match reflection_node s2 with
                | .error _ => .aborted ["generate_answer", "evaluate"]
                | .ok p2 =>
                    prependTrace ["generate_answer", "evaluate", "reflect"]
                      (runAux o fuel (applyPatch s2 p2))

/-- One full run of the workflow from an initial state. -/
def runWorkflow (o : Oracles) (fuel : Nat) (s : QAState) : RunOutcome :=
  runAux o fuel s

/-- Session metadata (memory.py).  The `_load_session` stub carries an
empty metadata dict, hence the optional fields. -/
structure SessionMeta where
  total_iterations : Option Int := none
  search_used : Option Bool := none
  reflection_count : Option Nat := none
deriving Repr

/-- One logged state transition (memory.py, lines 46-57), with the
`state_snapshot` sub-dict flattened into the record. -/
structure StateLogEntry where
  timestamp : String
  node : String
  iteration : Int
  has_draft : Bool
  has_evaluation : Bool
  has_search : Bool
  reflection_count : Nat
  evaluation_score : Option JsonVal
deriving Repr

/-- The `complete_state` snapshot written by `save_final_answer`
(memory.py, lines 73-79). -/
structure CompleteState where
  question : Option String
  final_answer : Option String
  iterations : Option Int
  reflections : List String
  evaluation : Option JsonVal
deriving Repr

/-- A persisted session (memory.py).  `timestamp` and `question` are
optional because the `_load_session` stub omits them. -/
structure Session where
  session_id : String
  timestamp : Option String := none
  question : Option String := none
  states : List StateLogEntry := []
  final_answer : Option String := none
  metadata : SessionMeta := {}
  complete_state : Option CompleteState := none
deriving Repr

/-- `_save_session` (memory.py, lines 128-149): replace the first
session with the same id, else append. -/
def saveSession : List Session → Session → List Session
  | [], s => [s]
  | t :: rest, s =>
      if t.session_id = s.session_id then s :: rest
      else t :: saveSession rest s

/-- `_load_session` (memory.py, lines 151-164): first session with the
given id, else the stub record. -/
def loadSession (sessions : List Session) (sid : String) : Session :=
  match sessions.find? (fun t => t.session_id == sid) with
  | some t => t
  | none => { session_id := sid }

/-- The `MemoryManager` state: the `sessions` array of the backing JSON
file plus the current session id.  All writes are whole-collection
read-modify-write, so a plain list models the file. -/
structure MemoryManager where
  sessions : List Session := []
  current_session_id : Option String := none
deriving Repr

/-- `create_session` (memory.py, lines 17-37).  The id is derived from
the creation timestamp by the code; both are supplied explicitly here
since wall-clock time is external. -/
def create_session (m : MemoryManager) (sid now question : String) : MemoryManager :=
  let sd : Session :=
    { session_id := sid
      timestamp := some now
      question := some question
      states := []
      final_answer := none
      metadata := { total_iterations := some 0, search_used := some false, reflection_count := some 0 } }
  { sessions := saveSession m.sessions sd, current_session_id := some sid }

/-- `state.get("evaluation", \x7b\x7d).get("score")`: raises on a
non-dict evaluation value. -/
def snapshotScore (st : QAState) : Except Unit (Option JsonVal) :=
  match st.evaluation.getD (.jobj []) with
  | .jobj d => .ok (dget d "score")
  | _ => .error ()

/-- `log_state` (memory.py, lines 39-64): append a log entry to the
current session and refresh its metadata; no-op without a current
session.  The entry timestamp is external. -/
def log_state (m : MemoryManager) (now node : String) (st : QAState) : Except Unit MemoryManager :=
  match m.current_session_id with
  | none => .ok m
  | some sid =>
      let sd := loadSession m.sessions sid
      match snapshotScore st with
      | .error _ => .error ()
      | .ok sc =>
          let entry : StateLogEntry :=
            { timestamp := now
              node := node
              iteration := st.iteration_count.getD 0
              has_draft := decide (st.draft_answer.getD "" ≠ "")
              has_evaluation := truthy (st.evaluation.getD .jnull)
              has_search := decide (st.search_results.getD "" ≠ "")
              reflection_count := (st.reflections.getD []).length
              evaluation_score := sc }
          let sd2 : Session :=
            { sd with
              states := sd.states ++ [entry]
              metadata :=
                { total_iterations := some (st.iteration_count.getD 0)
                  search_used := some (decide (st.search_results.getD "" ≠ ""))
                  reflection_count := some (st.reflections.getD []).length } }
          .ok { m with sessions := saveSession m.sessions sd2 }

/-- `save_final_answer` (memory.py, lines 66-82): write the final
answer and the complete-state snapshot; no-op without a current
session. -/
def save_final_answer (m : MemoryManager) (answer : String) (full : QAState) : MemoryManager :=
  match m.current_session_id with
  | none => m
  | some sid =>
      let sd := loadSession m.sessions sid
      let sd2 : Session :=
        { sd with
          final_answer := some answer
          complete_state := some
            { question := full.question
              final_answer := full.final_answer
              iterations := full.iteration_count
              reflections := full.reflections.getD []
              evaluation := full.evaluation } }
      { m with sessions := saveSession m.sessions sd2 }

/-- Descending-by-timestamp order used by `get_session_history`. -/
def tsGe (a b : Session) : Prop := b.timestamp.getD "" ≤ a.timestamp.getD ""

instance : DecidableRel tsGe := fun x y =>
  inferInstanceAs (Decidable (y.timestamp.getD "" ≤ x.timestamp.getD ""))

/-- Insert into a list already sorted descending by timestamp. -/
def insertDesc (x : Session) : List Session → List Session
  | [] => [x]
  | y :: ys => if tsGe x y then x :: y :: ys else y :: insertDesc x ys

/-- Sort sessions descending by timestamp (models
`all_sessions.sort(key=lambda x: x["timestamp"], reverse=True)`). -/
def sortDesc : List Session → List Session
  | [] => []
  | x :: xs => insertDesc x (sortDesc xs)

/-- `get_session_history` (memory.py, lines 84-95): sort all sessions
by timestamp descending and keep the first `limit`.  Reading the sort
key of a stub session without a timestamp raises (`.error`). -/
def get_session_history (m : MemoryManager) (limit : Nat) : Except Unit (List Session) :=
  if m.sessions.all (fun s => s.timestamp.isSome) then
    .ok ((sortDesc m.sessions).take limit)
  else .error ()

/-- Fold a list of `(timestamp, node, state)` log calls over the store. -/
def logAll (m : MemoryManager) : List (String × String × QAState) → Except Unit MemoryManager
  | [] => .ok m
  | (now, node, st) :: rest =>
      match log_state m now node st with
      | .error e => .error e
      | .ok m2 => logAll m2 rest

/-- The executed-node trace of a run outcome. -/
def traceOf : RunOutcome → List String
  | .ok _ tr => tr
  | .aborted tr => tr
  | .fuelOut tr => tr

/-- The backtick character (codepoint 96). -/
def btick : Char := Char.ofNat 96

/-- Modelled from the claim C1 wording: decision order with rule 3
requiring `search_results` to be *unset* (the key absent), for
comparison against the implemented router. -/
def routeClaimC1 (s : QAState) : String :=
  let d := match s.evaluation with | some (.jobj d) => d | _ => []
  let accTrue : Bool := match dget d "is_acceptable" with | some (.jbool true) => true | _ => false
  let scoreVal : Int := match dget d "score" with | some (.jnum n) => n | _ => 0
  let needsTrue : Bool := match dget d "needs_search" with | some (.jbool true) => true | _ => false
  if s.iteration_count.getD 0 ≥ s.max_iterations.getD 3 then "finalize"
  else if accTrue && decide (scoreVal ≥ 7) then "finalize"
  else if needsTrue && s.search_results.isNone then "search"
  else "reflect"

/-- The amended C1 decision procedure: as the claim, but rule 3 fires
when `search_results` is unset *or the empty string* (Python falsiness),
matching the source. -/
def routeClaimC1Amended (s : QAState) : String :=
  let d := match s.evaluation with | some (.jobj d) => d | _ => []
  let accTrue : Bool := match dget d "is_acceptable" with | some (.jbool true) => true | _ => false
  let scoreVal : Int := match dget d "score" with | some (.jnum n) => n | _ => 0
  let needsTrue : Bool := match dget d "needs_search" with | some (.jbool true) => true | _ => false
  if s.iteration_count.getD 0 ≥ s.max_iterations.getD 3 then "finalize"
  else if accTrue && decide (scoreVal ≥ 7) then "finalize"
  else if needsTrue && decide (s.search_results.getD "" = "") then "search"
  else "reflect"

/-- The named key is absent from the record or bound to a boolean. -/
def boolOrAbsent (d : List (String × JsonVal)) (key : String) : Bool :=
  match dget d key with
  | none => true
  | some (.jbool _) => true
  | some _ => false

/-- The named key is absent from the record or bound to a number. -/
def numOrAbsent (d : List (String × JsonVal)) (key : String) : Bool :=
  match dget d key with
  | none => true
  | some (.jnum _) => true
  | some _ => false

/-- A state whose evaluation is absent or a well-typed evaluation
record: `is_acceptable`/`needs_search` boolean and `score` numeric when
present.  All states produced by a well-formed model response have this
shape. -/
def evalRecordShaped (s : QAState) : Prop :=
  s.evaluation.isNone = true ∨
  ∃ d, s.evaluation = some (.jobj d)
    ∧ boolOrAbsent d "is_acceptable" = true
    ∧ numOrAbsent d "score" = true
    ∧ boolOrAbsent d "needs_search" = true

/-- Router counterexample state: a third iteration awaits, the answer
is not acceptable, search is requested, and `search_results` is *set*
to the empty string (a real search that returned zero results). -/
def c1CexState : QAState :=
  { evaluation := some (.jobj
      [("is_acceptable", .jbool false), ("score", .jnum 3), ("needs_search", .jbool true)])
    search_results := some ""
    iteration_count := some 1
    max_iterations := some 3 }

/-- Modelled from the claim C4 wording: each attempt in order, but an
attempt only wins if its parsed record contains both `score` and
`is_acceptable`; otherwise the later attempts are still tried. -/
def specExtractC4 (text : String) : Option JsonVal :=
  let keyed : Option JsonVal → Option JsonVal := fun o =>
    match o with
    | some (.jobj d) => if dhas d "score" && dhas d "is_acceptable" then some (.jobj d) else none
    | _ => none
  match keyed ((findFencedL text.toList).bind jsonLoads) with
  | some v => some v
  | none =>
      match keyed ((findBracesL text.toList).bind jsonLoads) with
      | some v => some v
      | none => keyed (jsonLoads text)

/-- Extraction counterexample text: a keyed record first, then a fenced
block holding a keyless record.  The fenced attempt runs first, parses,
and wins, so the keyed record is never reached. -/
def c4Text : String :=
  "\x7b\"score\": 9, \"is_acceptable\": true\x7d ```json\n\x7b\"foo\": 1\x7d\n```"

/-- Round-trip counterexample text: an empty brace pair before the
embedded record captures the brace-regex match. -/
def c7Text : String :=
  "\x7b\x7d \x7b\"score\": 8, \"is_acceptable\": true\x7d"

/-- Body of a well-formed evaluation record with the given score and
acceptability (fixed rubric lists; no inner braces or backticks). -/
def evalRecordBody (n : Nat) (b : Bool) : String :=
  "\"score\": " ++ Nat.repr n ++ ", \"is_acceptable\": " ++ (if b then "true" else "false") ++
    ", \"strengths\": [\"Answer provided\"], \"weaknesses\": [], \"suggestions\": []" ++
    ", \"needs_search\": false"

/-- The serialized well-formed evaluation record. -/
def evalRecordText (n : Nat) (b : Bool) : String :=
  "\x7b" ++ evalRecordBody n b ++ "\x7d"

/-- Model response asserting an acceptable score of 9. -/
def evalTextAccept : String :=
  "\x7b\"score\": 9, \"is_acceptable\": true, \"needs_search\": false\x7d"

/-- Model response asserting a poor score that needs a search. -/
def evalTextSearch : String :=
  "\x7b\"score\": 3, \"is_acceptable\": false, \"needs_search\": true\x7d"

/-- Oracle whose evaluation immediately accepts the draft. -/
def oAccept : Oracles :=
  { genResponse := fun _ => "a draft"
    searchOutcome := fun _ => .ok []
    evalResponse := fun _ => evalTextAccept
    finalResponse := fun _ => "final answer" }

/-- Oracle that always wants a search and whose search collaborator
returns an empty result list. -/
def oEmptySearch : Oracles :=
  { genResponse := fun _ => "a draft"
    searchOutcome := fun _ => .ok []
    evalResponse := fun _ => evalTextSearch
    finalResponse := fun _ => "final answer" }

/-- Oracle that always wants a search and whose search collaborator
returns one result. -/
def oOneResult : Oracles :=
  { genResponse := fun _ => "a draft"
    searchOutcome := fun _ => .ok [{ content := some "a fact", url := some "http://example.org" }]
    evalResponse := fun _ => evalTextSearch
    finalResponse := fun _ => "final answer" }

/-- Initial state as built by `run_qa_workflow` (2main.py, lines 35-40). -/
def initState (q : String) (maxIter : Int) : QAState :=
  { question := some q
    max_iterations := some maxIter
    iteration_count := some 0
    reflections := some [] }

/-- A simple logged state for the session-store witness. -/
def stLogW : QAState :=
  { question := some "Q", draft_answer := some "D", iteration_count := some 1, reflections := some [] }

/-! ### Helper lemmas -/

/-- A key bound under `boolOrAbsent` is bound to a boolean. -/
theorem boolOrAbsent_some {d : List (String × JsonVal)} {key : String} {v : JsonVal}
    (h : boolOrAbsent d key = true) (hv : dget d key = some v) : ∃ b, v = .jbool b := by
  unfold boolOrAbsent at h
  rw [hv] at h
  cases v <;> first | exact ⟨_, rfl⟩ | simp at h

/-- A key bound under `numOrAbsent` is bound to a number. -/
theorem numOrAbsent_some {d : List (String × JsonVal)} {key : String} {v : JsonVal}
    (h : numOrAbsent d key = true) (hv : dget d key = some v) : ∃ n, v = .jnum n := by
  unfold numOrAbsent at h
  rw [hv] at h
  cases v <;> first | exact ⟨_, rfl⟩ | simp at h

/-- A record with a bound key is truthy (non-empty). -/
theorem truthy_of_dhas {d : List (String × JsonVal)} {key : String}
    (h : dhas d key = true) : truthy (.jobj d) = true := by
  cases d with
  | nil => simp [dhas, dget] at h
  | cons x xs => rfl

/-- The evaluate step stores any extracted record that contains both
`score` and `is_acceptable`, unchanged. -/
theorem evaluate_stores_keyed (st : QAState) (r : String) (d : List (String × JsonVal))
    (hx : extract_json_from_text r = some (.jobj d))
    (hs : dhas d "score" = true) (ha : dhas d "is_acceptable" = true) :
    evaluate_answer_node st r = .ok { evaluation := some (.jobj d) } := by
  unfold evaluate_answer_node
  rw [hx]
  simp [truthy_of_dhas hs, pyContains, hs, ha]

/-- The evaluate step falls back when the extracted record lacks
`score` or `is_acceptable`. -/
theorem evaluate_keyless_fallback (st : QAState) (r : String) (d : List (String × JsonVal))
    (hx : extract_json_from_text r = some (.jobj d))
    (hk : dhas d "score" = false ∨ dhas d "is_acceptable" = false) :
    evaluate_answer_node st r = .ok { evaluation := some (fallback_evaluation st) } := by
  unfold evaluate_answer_node
  rw [hx]
  by_cases htr : truthy (.jobj d) = true
  · by_cases hsc : dhas d "score" = true
    · have ha : dhas d "is_acceptable" = false := by
        rcases hk with h | h
        · rw [h] at hsc; cases hsc
        · exact h
      simp [htr, pyContains, hsc, ha]
    · simp [htr, pyContains, hsc]
  · simp [htr]

/-! ### Claim C1: router decision order -/

/-- C1 (counterexample): at a state with `needs_search` true and
`search_results` *set* to the empty string, the implemented router
returns `search`, while the claimed decision order (rule 3 requiring
`search_results` to be unset) returns `reflect`.  The claim, as stated,
is therefore false at this state. -/
theorem c1_router_unset_counterexample :
    should_continue c1CexState = .ok "search"
    ∧ routeClaimC1 c1CexState = "reflect"
    ∧ c1CexState.search_results = some "" := by
  refine ⟨rfl, rfl, rfl⟩

/-- C1 (amended): the router applies the claimed decision order with
first match winning, except that rule 3 fires when `search_results` is
unset *or empty* (Python falsiness).  Part 1: whenever
`iteration_count ≥ max_iterations` (with the code defaults 0 and 3 for
absent fields) the router returns `finalize` regardless of every other
field.  Part 2: on every state whose evaluation is absent or a
well-typed record, the router is total and equals the amended decision
procedure. -/
theorem c1_router_decision_order :
    (∀ s : QAState, s.iteration_count.getD 0 ≥ s.max_iterations.getD 3 →
        should_continue s = .ok "finalize")
    ∧ (∀ s : QAState, evalRecordShaped s →
        should_continue s = .ok (routeClaimC1Amended s)) := by
  constructor
  · intro s h
    unfold should_continue
    simp [h]
  · intro s hshape
    unfold should_continue routeClaimC1Amended
    by_cases hit : s.iteration_count.getD 0 ≥ s.max_iterations.getD 3
    · simp [hit]
    · simp only [if_neg hit]
      rcases hshape with h | ⟨d, hd, hacc, hsc, hns⟩
      · rw [Option.isNone_iff_eq_none] at h
        rw [h]
        simp [dget, truthy]
      · rw [hd]
        simp only [Option.getD_some]
        rcases hdga : dget d "is_acceptable" with _ | v
        · simp only [hdga, Option.getD_none, truthy, Bool.false_eq_true, if_false]
          rcases hdn : dget d "needs_search" with _ | v
          · simp [hdn, truthy]
          · obtain ⟨b, rfl⟩ := boolOrAbsent_some hns hdn
            cases b <;> simp [hdn, truthy, apply_ite]
        · obtain ⟨b, rfl⟩ := boolOrAbsent_some hacc hdga
          cases b
          · simp only [hdga, Option.getD_some, truthy, Bool.false_eq_true, if_false]
            rcases hdn : dget d "needs_search" with _ | v
            · simp [hdn, truthy]
            · obtain ⟨b, rfl⟩ := boolOrAbsent_some hns hdn
              cases b <;> simp [hdn, truthy, apply_ite]
          · simp only [hdga, Option.getD_some, truthy, if_true]
            rcases hds : dget d "score" with _ | w
            · simp only [hds, Option.getD_none, pyGe7]
              norm_num
              rcases hdn : dget d "needs_search" with _ | v
              · simp [hdn, truthy]
              · obtain ⟨b, rfl⟩ := boolOrAbsent_some hns hdn
                cases b <;> simp [hdn, truthy, apply_ite]
            · obtain ⟨n, rfl⟩ := numOrAbsent_some hsc hds
              simp only [hds, Option.getD_some, pyGe7]
              by_cases hge : n ≥ 7
              · simp [hge]
              · simp only [hge, Bool.false_eq_true, if_false, decide_eq_false,
                  Except.ok.injEq]
                rcases hdn : dget d "needs_search" with _ | v
                · simp [hdn, truthy, hge]
                · obtain ⟨b, rfl⟩ := boolOrAbsent_some hns hdn
                  cases b <;> simp [hdn, truthy, hge, apply_ite]

/-- C1 (witness): the amended router theorem applied at the iteration
bound and at the counterexample state. -/
theorem c1_router_decision_order_witness :
    should_continue { iteration_count := some 3, max_iterations := some 3 } = .ok "finalize"
    ∧ should_continue c1CexState = .ok (routeClaimC1Amended c1CexState) := by
  constructor
  · exact c1_router_decision_order.1 _ (by decide)
  · exact c1_router_decision_order.2 c1CexState (Or.inr ⟨_, rfl, rfl, rfl, rfl⟩)

/-! ### Claim C2: fallback evaluation record -/

/-- C2: when extraction fails outright the evaluate step produces
exactly the claimed fallback record - `score` clamped to [5,10] from
`draft_length // 200`, `is_acceptable` iff `iteration ≥ 2` or
`score ≥ 7` (the code reads the iteration with default 1), strengths
`["Answer provided"]`, weaknesses/suggestions empty iff `score ≥ 7`,
`needs_search` false.  However, when the whole-text parse yields a bare
number, the membership test `"score" in 8` raises `TypeError` and the
run aborts instead of falling back, contradicting the claim (and the
spec's "never halt on a formatting failure"): that is the first
conjunct, exhibited on the response text `"8"`. -/
theorem c2_fallback_record :
    (∀ st : QAState, evaluate_answer_node st "8" = .error ())
    ∧ (∀ st : QAState,
        evaluate_answer_node st "The answer looks good to me." =
          .ok { evaluation := some (.jobj
            [("score", .jnum ((min 10 (max 5 ((st.draft_answer.getD "").length / 200)) : Nat) : Int)),
             ("is_acceptable", .jbool (decide ((st.iteration_count.getD 1 : Int) ≥ 2)
                || decide ((min 10 (max 5 ((st.draft_answer.getD "").length / 200)) : Nat) ≥ 7))),
             ("strengths", .jarr [.jstr "Answer provided"]),
             ("weaknesses", if (min 10 (max 5 ((st.draft_answer.getD "").length / 200)) : Nat) ≥ 7
                then .jarr [] else .jarr [.jstr "Could be more detailed"]),
             ("suggestions", if (min 10 (max 5 ((st.draft_answer.getD "").length / 200)) : Nat) ≥ 7
                then .jarr [] else .jarr [.jstr "Add more examples"]),
             ("needs_search", .jbool false)]) }) := by
  exact ⟨fun st => rfl, fun st => rfl⟩

/-! ### Claim C4: extraction attempt order -/

/-- C4 (counterexample): on a text carrying a keyed record followed by
a fenced keyless record, the implemented extractor returns the keyless
fenced record (first *parse* success wins and the keys are never
consulted), while the claimed algorithm - later attempts still tried
when an earlier parse lacks the keys - would return the keyed record;
the evaluate step consequently falls back. -/
theorem c4_attempt_order_counterexample :
    extract_json_from_text c4Text = some (.jobj [("foo", .jnum 1)])
    ∧ specExtractC4 c4Text = some (.jobj [("score", .jnum 9), ("is_acceptable", .jbool true)])
    ∧ evaluate_answer_node { iteration_count := some 1, draft_answer := some "short" } c4Text =
        .ok { evaluation := some (fallback_evaluation
          { iteration_count := some 1, draft_answer := some "short" }) } := by
  refine ⟨rfl, rfl, rfl⟩

/-- C4 (amended): the parser tries, in order, the fenced block, the
first balanced brace substring, then the whole text, and the first
attempt whose candidate *parses* wins, regardless of which keys it
contains; the `score`/`is_acceptable` key check is applied once, by the
evaluate step, to the winning record - a keyed winner is stored
unchanged and a keyless winner triggers the fallback (later attempts
are not retried). -/
theorem c4_first_parse_wins :
    ∀ text : String,
      (∀ v, (findFencedL text.toList).bind jsonLoads = some v →
          extract_json_from_text text = some v)
      ∧ ((findFencedL text.toList).bind jsonLoads = none →
          ∀ v, (findBracesL text.toList).bind jsonLoads = some v →
            extract_json_from_text text = some v)
      ∧ ((findFencedL text.toList).bind jsonLoads = none →
          (findBracesL text.toList).bind jsonLoads = none →
          extract_json_from_text text = jsonLoads text)
      ∧ (∀ (st : QAState) (d : List (String × JsonVal)),
          extract_json_from_text text = some (.jobj d) →
          dhas d "score" = true → dhas d "is_acceptable" = true →
          evaluate_answer_node st text = .ok { evaluation := some (.jobj d) })
      ∧ (∀ (st : QAState) (d : List (String × JsonVal)),
          extract_json_from_text text = some (.jobj d) →
          (dhas d "score" = false ∨ dhas d "is_acceptable" = false) →
          evaluate_answer_node st text = .ok { evaluation := some (fallback_evaluation st) }) := by
  intro text
  refine ⟨?_, ?_, ?_, ?_, ?_⟩
  · intro v hv
    unfold extract_json_from_text
    rw [hv]
  · intro ha v hv
    unfold extract_json_from_text
    rw [ha, hv]
  · intro ha hb
    unfold extract_json_from_text
    rw [ha, hb]
  · intro st d hx hs hA
    exact evaluate_stores_keyed st text d hx hs hA
  · intro st d hx hk
    exact evaluate_keyless_fallback st text d hx hk

/-- C4 (witness): the amended theorem applied to a concrete text with
no fence, whose first brace substring parses and, being keyed, is
stored by the evaluate step. -/
theorem c4_first_parse_wins_witness :
    extract_json_from_text "ok: \x7b\"score\": 4, \"is_acceptable\": false\x7d" =
      some (.jobj [("score", .jnum 4), ("is_acceptable", .jbool false)])
    ∧ evaluate_answer_node {} "ok: \x7b\"score\": 4, \"is_acceptable\": false\x7d" =
        .ok { evaluation := some (.jobj [("score", .jnum 4), ("is_acceptable", .jbool false)]) } := by
  have h1 := ((c4_first_parse_wins "ok: \x7b\"score\": 4, \"is_acceptable\": false\x7d").2.1)
    rfl (.jobj [("score", .jnum 4), ("is_acceptable", .jbool false)]) rfl
  have h2 := ((c4_first_parse_wins "ok: \x7b\"score\": 4, \"is_acceptable\": false\x7d").2.2.2.1)
    {} [("score", .jnum 4), ("is_acceptable", .jbool false)] h1 rfl rfl
  exact ⟨h1, h2⟩

/-! ### Claim C6: search failure handling -/

/-- C6 (counterexample): an *empty* search response does not produce
the `"Search unavailable"` sentinel claimed for it - the step formats
zero results into the empty string. -/
theorem c6_empty_response_counterexample :
    (search_tool_node {} (.ok [])).search_results = some ""
    ∧ ("" : String) ≠ "Search unavailable" := by
  exact ⟨rfl, by decide⟩

/-- C6 (amended): on a raised collaborator failure (exception or
timeout) the search step returns the `"Search unavailable"` sentinel;
an empty result list instead yields an empty `search_results` string;
in every case the step returns a patch that sets `search_results` (the
numbered-block formatting of returned results), never propagating the
failure. -/
theorem c6_search_best_effort :
    ∀ (st : QAState) (outcome : Except Unit (List SearchResult)),
      search_tool_node st (.error ()) = { search_results := some "Search unavailable" }
      ∧ search_tool_node st (.ok []) = { search_results := some "" }
      ∧ (∀ results, search_tool_node st (.ok results) =
          { search_results := some (format_search_results results) })
      ∧ (search_tool_node st outcome).search_results.isSome = true := by
  intro st outcome
  refine ⟨rfl, rfl, fun results => rfl, ?_⟩
  cases outcome <;> rfl

/-! ### Claim C9: router totality on degenerate states -/

/-- C9: on a state whose evaluation is absent or lacks all of
`is_acceptable`, `score` and `needs_search`, the missing fields default
to false/0/false and `max_iterations` defaults to 3 when absent, so the
router returns `reflect` (rather than failing) whenever the iteration
count is below the (possibly defaulted) bound. -/
theorem c9_router_degenerate_defaults :
    ∀ s : QAState,
      (s.evaluation.isNone = true ∨
        ∃ d, s.evaluation = some (.jobj d)
          ∧ (dget d "is_acceptable").isNone = true
          ∧ (dget d "score").isNone = true
          ∧ (dget d "needs_search").isNone = true) →
      s.iteration_count.getD 0 < s.max_iterations.getD 3 →
      should_continue s = .ok "reflect" := by
  intro s hdeg hlt
  unfold should_continue
  rw [if_neg (not_le.mpr hlt)]
  rcases hdeg with h | ⟨d, hd, hacc, hsc, hns⟩
  · rw [Option.isNone_iff_eq_none] at h
    rw [h]
    simp [dget, truthy]
  · rw [hd]
    rw [Option.isNone_iff_eq_none] at hacc hsc hns
    simp [hacc, hns, truthy]

/-- C9 (witness): the empty state - no evaluation, no iteration count,
no bound - routes to `reflect` under the defaults 0 and 3. -/
theorem c9_router_degenerate_defaults_witness :
    should_continue ({} : QAState) = .ok "reflect" :=
  c9_router_degenerate_defaults {} (Or.inl rfl) (by decide)

/-! ### Claim C10: no validation beyond key presence -/

/-- C10: every extracted record containing the keys `score` and
`is_acceptable` is stored as the state's evaluation unchanged - no
range check on `score`, no type check on `is_acceptable`, no length or
presence check on the rubric lists. -/
theorem c10_no_validation_beyond_keys :
    ∀ (st : QAState) (response : String) (d : List (String × JsonVal)),
      extract_json_from_text response = some (.jobj d) →
      dhas d "score" = true → dhas d "is_acceptable" = true →
      evaluate_answer_node st response = .ok { evaluation := some (.jobj d) } := by
  intro st response d hx hs ha
  exact evaluate_stores_keyed st response d hx hs ha

/-- C10 (witness): a record with an out-of-range score, a non-boolean
`is_acceptable` and no rubric lists is stored verbatim. -/
theorem c10_no_validation_beyond_keys_witness :
    evaluate_answer_node {} "\x7b\"score\": 99, \"is_acceptable\": \"yes\"\x7d" =
      .ok { evaluation := some (.jobj [("score", .jnum 99), ("is_acceptable", .jstr "yes")]) } :=
  c10_no_validation_beyond_keys {} "\x7b\"score\": 99, \"is_acceptable\": \"yes\"\x7d"
    [("score", .jnum 99), ("is_acceptable", .jstr "yes")] rfl rfl rfl

/-! ### Engine lemmas -/

/-- Every successful evaluate patch sets only `evaluation`. -/
theorem evaluate_patch_shape {st : QAState} {r : String} {p : Patch}
    (h : evaluate_answer_node st r = .ok p) : ∃ v, p = { evaluation := some v } := by
  unfold evaluate_answer_node at h
  repeat' split at h
  all_goals (try cases h) <;> exact ⟨_, rfl⟩

/-- Every successful reflection patch sets only `reflections`. -/
theorem reflection_patch_shape {st : QAState} {p : Patch}
    (h : reflection_node st = .ok p) : ∃ l, p = { reflections := some l } := by
  unfold reflection_node at h
  dsimp only at h
  repeat' split at h
  all_goals (try cases h) <;> exact ⟨_, rfl⟩

/-- Rule 1 dominates: at or past the iteration bound the router
finalizes regardless of the rest of the state. -/
theorem should_continue_ge_finalize {s : QAState}
    (h : s.iteration_count.getD 0 ≥ s.max_iterations.getD 3) :
    should_continue s = .ok "finalize" := by
  unfold should_continue
  simp [h]

/-- A successful non-finalize route implies the bound was not reached. -/
theorem lt_of_route_ne_finalize {s : QAState} {route : String}
    (h : should_continue s = .ok route) (hne : route ≠ "finalize") :
    s.iteration_count.getD 0 < s.max_iterations.getD 3 := by
  by_contra hge
  rw [should_continue_ge_finalize (not_lt.mp hge)] at h
  exact hne (Except.ok.inj h).symm

/-- Core iteration-count induction: from any loop entry below the
bound, a terminated run adds exactly one iteration per `generate` in
its trace and never exceeds the bound. -/
theorem runAux_iter_bound (o : Oracles) (m : Int) :
    ∀ (fuel : Nat) (s : QAState) (k : Int) (s2 : QAState) (tr : List String),
      s.max_iterations = some m → s.iteration_count.getD 0 = k → k < m →
      runAux o fuel s = .ok s2 tr →
      s2.iteration_count = some (k + (tr.count "generate_answer" : Nat)) ∧
        k + (tr.count "generate_answer" : Nat) ≤ m := by
  intro fuel
  induction fuel with
  | zero =>
      intro s k s2 tr _ _ _ hrun
      simp [runAux] at hrun
  | succ fuel ih =>
      intro s k s2 tr hmax hiter hlt hrun
      simp only [runAux] at hrun
      set s1 := applyPatch s (generate_answer_node s (o.genResponse s)) with hs1
      have hs1iter : s1.iteration_count = some (k + 1) := by
        rw [hs1, ← hiter]; rfl
      have hs1max : s1.max_iterations = some m := by rw [hs1, ← hmax]; rfl
      cases hev : evaluate_answer_node s1 (o.evalResponse s1) with
      | error e => rw [hev] at hrun; cases hrun
      | ok p =>
          rw [hev] at hrun
          obtain ⟨v, rfl⟩ := evaluate_patch_shape hev
          dsimp only at hrun
          set s2' := applyPatch s1 { evaluation := some v } with hs2'
          have hs2iter : s2'.iteration_count = some (k + 1) := by
            rw [hs2', ← hs1iter]; rfl
          have hs2max : s2'.max_iterations = some m := by rw [hs2', ← hs1max]; rfl
          cases hroute : should_continue s2' with
          | error e => rw [hroute] at hrun; cases hrun
          | ok route =>
              rw [hroute] at hrun
              dsimp only at hrun
              by_cases hfin : route = "finalize"
              · rw [if_pos hfin] at hrun
                cases hrun
                have hc : List.count "generate_answer" ["generate_answer", "evaluate", "finalize"] = 1 := by decide
                have hfinpres : (applyPatch s2' (finalize_answer_node s2'
                    (o.finalResponse s2'))).iteration_count = s2'.iteration_count := rfl
                constructor
                · rw [hfinpres, hs2iter, hc]
                  norm_num
                · rw [hc]
                  push_cast
                  omega
              · have hlt2 : k + 1 < m := by
                  have hx := lt_of_route_ne_finalize hroute hfin
                  rw [hs2iter, hs2max] at hx
                  simpa using hx
                rw [if_neg hfin] at hrun
                by_cases hsr : route = "search"
                · rw [if_pos hsr] at hrun
                  set s3 := applyPatch s2' (search_tool_node s2' (o.searchOutcome s2')) with hs3
                  have hs3iter : s3.iteration_count.getD 0 = k + 1 := by
                    have hpres : s3.iteration_count = s2'.iteration_count := by
                      rw [hs3]; cases o.searchOutcome s2' <;> rfl
                    rw [hpres, hs2iter]; rfl
                  have hs3max : s3.max_iterations = some m := by rw [hs3, ← hs2max]; rfl
                  cases hinner : runAux o fuel s3 with
                  | ok s4 tr4 =>
                      rw [hinner] at hrun
                      dsimp only [prependTrace] at hrun
                      obtain ⟨h1, h2⟩ := ih s3 (k + 1) s4 tr4 hs3max hs3iter hlt2 hinner
                      have hc : List.count "generate_answer" ["generate_answer", "evaluate", "search"] = 1 := by decide
                      cases hrun
                      constructor
                      · rw [h1, List.count_append, hc]
                        congr 1
                        push_cast
                        ring
                      · rw [List.count_append, hc]
                        push_cast at h2 ⊢
                        omega
                  | aborted tr4 => rw [hinner] at hrun; cases hrun
                  | fuelOut tr4 => rw [hinner] at hrun; cases hrun
                · rw [if_neg hsr] at hrun
                  cases hrefl : reflection_node s2' with
                  | error e => rw [hrefl] at hrun; cases hrun
                  | ok p2 =>
                      rw [hrefl] at hrun
                      obtain ⟨l, rfl⟩ := reflection_patch_shape hrefl
                      dsimp only at hrun
                      set s3 := applyPatch s2' { reflections := some l } with hs3
                      have hs3iter : s3.iteration_count.getD 0 = k + 1 := by
                        have hpres : s3.iteration_count = s2'.iteration_count := by
                          rw [hs3]; rfl
                        rw [hpres, hs2iter]; rfl
                      have hs3max : s3.max_iterations = some m := by rw [hs3, ← hs2max]; rfl
                      cases hinner : runAux o fuel s3 with
                      | ok s4 tr4 =>
                          rw [hinner] at hrun
                          dsimp only [prependTrace] at hrun
                          obtain ⟨h1, h2⟩ := ih s3 (k + 1) s4 tr4 hs3max hs3iter hlt2 hinner
                          have hc : List.count "generate_answer" ["generate_answer", "evaluate", "reflect"] = 1 := by decide
                          cases hrun
                          constructor
                          · rw [h1, List.count_append, hc]
                            congr 1
                            push_cast
                            ring
                          · rw [List.count_append, hc]
                            push_cast at h2 ⊢
                            omega
                      | aborted tr4 => rw [hinner] at hrun; cases hrun
                      | fuelOut tr4 => rw [hinner] at hrun; cases hrun

/-! ### Claim C3: iteration-count invariant -/

/-- C3: each generate step increments `iteration_count` by exactly 1;
the search, evaluate, reflect and finalize steps leave it unchanged;
and for every terminated run started with `iteration_count` 0 (or
absent) and `max_iterations = m ≥ 1`, the final `iteration_count`
equals the number of generate invocations in the trace and is at most
`m`. -/
theorem c3_iteration_count_invariant :
    (∀ (s : QAState) (r : String),
        (applyPatch s (generate_answer_node s r)).iteration_count =
          some (s.iteration_count.getD 0 + 1))
    ∧ (∀ (s : QAState) (oc : Except Unit (List SearchResult)),
        (applyPatch s (search_tool_node s oc)).iteration_count = s.iteration_count)
    ∧ (∀ (s : QAState) (r : String) (p : Patch), evaluate_answer_node s r = .ok p →
        (applyPatch s p).iteration_count = s.iteration_count)
    ∧ (∀ (s : QAState) (p : Patch), reflection_node s = .ok p →
        (applyPatch s p).iteration_count = s.iteration_count)
    ∧ (∀ (s : QAState) (r : String),
        (applyPatch s (finalize_answer_node s r)).iteration_count = s.iteration_count)
    ∧ (∀ (o : Oracles) (fuel : Nat) (s0 s1 : QAState) (m : Int) (tr : List String),
        s0.iteration_count.getD 0 = 0 → s0.max_iterations = some m → 1 ≤ m →
        runWorkflow o fuel s0 = .ok s1 tr →
        s1.iteration_count = some ((tr.count "generate_answer" : Nat) : Int)
          ∧ ((tr.count "generate_answer" : Nat) : Int) ≤ m) := by
  refine ⟨fun s r => rfl, fun s oc => ?_, fun s r p h => ?_, fun s p h => ?_,
    fun s r => rfl, fun o fuel s0 s1 m tr hiter hmax hm hrun => ?_⟩
  · cases oc <;> rfl
  · obtain ⟨v, rfl⟩ := evaluate_patch_shape h
    rfl
  · obtain ⟨l, rfl⟩ := reflection_patch_shape h
    rfl
  · have h := runAux_iter_bound o m fuel s0 0 s1 tr hmax hiter (by omega) hrun
    simpa using h

/-- C3 (witness): a run that accepts on the first draft terminates
with one generate, matching trace count and bound 2; plus the
evaluate-preserves conjunct applied at a fallback evaluation. -/
theorem c3_iteration_count_invariant_witness :
    (∃ s1 tr, runWorkflow oAccept 3 (initState "q" 2) = .ok s1 tr
      ∧ s1.iteration_count = some ((tr.count "generate_answer" : Nat) : Int)
      ∧ ((tr.count "generate_answer" : Nat) : Int) ≤ 2)
    ∧ (applyPatch { iteration_count := some 5 }
        { evaluation := some (fallback_evaluation { iteration_count := some 5 }) }).iteration_count
      = ({ iteration_count := some 5 } : QAState).iteration_count := by
  constructor
  · exact ⟨_, _, rfl,
      c3_iteration_count_invariant.2.2.2.2.2 oAccept 3 (initState "q" 2) _ 2 _ rfl rfl
        (by norm_num) rfl⟩
  · exact c3_iteration_count_invariant.2.2.1 { iteration_count := some 5 } "no json"
      { evaluation := some (fallback_evaluation { iteration_count := some 5 }) } rfl

/-! ### Search-repetition lemmas -/


theorem traceOf_prepend (pre : List String) (r : RunOutcome) :
    traceOf (prependTrace pre r) = pre ++ traceOf r := by
  cases r <;> rfl

theorem route_search_falsy {s : QAState} (h : should_continue s = .ok "search") :
    s.search_results.getD "" = "" := by
  unfold should_continue at h
  repeat' split at h
  all_goals simp_all
  all_goals (repeat' split at h)
  all_goals simp_all

theorem joinSep_cons_length (sep b : String) (rest : List String) :
    b.length ≤ (joinSep sep (b :: rest)).length := by
  cases rest with
  | nil => simp [joinSep]
  | cons y ys =>
      show b.length ≤ (b ++ sep ++ joinSep sep (y :: ys)).length
      rw [String.length_append, String.length_append]
      omega

theorem format_search_results_ne_empty {l : List SearchResult} (h : l ≠ []) :
    format_search_results l ≠ "" := by
  cases l with
  | nil => exact absurd rfl h
  | cons x xs =>
      intro heq
      have h1 : (format_search_results (x :: xs)).length = 0 := by rw [heq]; rfl
      have h2 := joinSep_cons_length "\n\n"
        (Nat.repr 1 ++ ". " ++ (x.content.getD "") ++ "\nSource: " ++ (x.url.getD "N/A"))
        (((xs.enumFrom 2)).map
          (fun p => Nat.repr p.fst ++ ". " ++ (p.snd.content.getD "") ++
            "\nSource: " ++ (p.snd.url.getD "N/A")))
      have h3 : format_search_results (x :: xs) =
          joinSep "\n\n" ((Nat.repr 1 ++ ". " ++ (x.content.getD "") ++ "\nSource: " ++ (x.url.getD "N/A")) ::
            ((xs.enumFrom 2)).map
              (fun p => Nat.repr p.fst ++ ". " ++ (p.snd.content.getD "") ++
                "\nSource: " ++ (p.snd.url.getD "N/A"))) := rfl
      rw [h3] at h1
      have h4 : 1 ≤ (Nat.repr 1 ++ ". " ++ (x.content.getD "") ++ "\nSource: " ++ (x.url.getD "N/A")).length := by
        rw [String.length_append, String.length_append, String.length_append,
          String.length_append]
        have : (Nat.repr 1).length = 1 := rfl
        omega
      omega

theorem runAux_no_search (o : Oracles) :
    ∀ (fuel : Nat) (s : QAState), s.search_results.getD "" ≠ "" →
      (traceOf (runAux o fuel s)).count "search" = 0 := by
  intro fuel
  induction fuel with
  | zero => intro s _; rfl
  | succ fuel ih =>
      intro s hset
      simp only [runAux]
      set s1 := applyPatch s (generate_answer_node s (o.genResponse s)) with hs1
      have h1 : s1.search_results = s.search_results := by rw [hs1]; rfl
      cases hev : evaluate_answer_node s1 (o.evalResponse s1) with
      | error e => rfl
      | ok p =>
          obtain ⟨v, rfl⟩ := evaluate_patch_shape hev
          dsimp only
          set s2' := applyPatch s1 { evaluation := some v } with hs2'
          have h2 : s2'.search_results = s.search_results := by rw [hs2', ← h1]; rfl
          have h2' : s2'.search_results.getD "" ≠ "" := by rw [h2]; exact hset
          cases hroute : should_continue s2' with
          | error e => rfl
          | ok route =>
              dsimp only
              by_cases hfin : route = "finalize"
              · rw [if_pos hfin]; rfl
              · rw [if_neg hfin]
                by_cases hsr : route = "search"
                · exfalso
                  rw [hsr] at hroute
                  exact h2' (route_search_falsy hroute)
                · rw [if_neg hsr]
                  cases hrefl : reflection_node s2' with
                  | error e => rfl
                  | ok p2 =>
                      obtain ⟨l, rfl⟩ := reflection_patch_shape hrefl
                      dsimp only
                      set s3 := applyPatch s2' { reflections := some l } with hs3
                      have h3 : s3.search_results.getD "" ≠ "" := by
                        have : s3.search_results = s2'.search_results := by rw [hs3]; rfl
                        rw [this]; exact h2'
                      rw [traceOf_prepend, List.count_append, ih s3 h3]
                      rfl

theorem runAux_search_le_one (o : Oracles)
    (hor : ∀ s l, o.searchOutcome s = .ok l → l ≠ []) :
    ∀ (fuel : Nat) (s : QAState), s.search_results = none →
      (traceOf (runAux o fuel s)).count "search" ≤ 1 := by
  intro fuel
  induction fuel with
  | zero => intro s _; simp [runAux, traceOf]
  | succ fuel ih =>
      intro s hnone
      simp only [runAux]
      set s1 := applyPatch s (generate_answer_node s (o.genResponse s)) with hs1
      have h1 : s1.search_results = s.search_results := by rw [hs1]; rfl
      cases hev : evaluate_answer_node s1 (o.evalResponse s1) with
      | error e => simp [traceOf]
      | ok p =>
          obtain ⟨v, rfl⟩ := evaluate_patch_shape hev
          dsimp only
          set s2' := applyPatch s1 { evaluation := some v } with hs2'
          have h2 : s2'.search_results = none := by
            have : s2'.search_results = s.search_results := by rw [hs2', ← h1]; rfl
            rw [this, hnone]
          cases hroute : should_continue s2' with
          | error e => simp [traceOf]
          | ok route =>
              dsimp only
              by_cases hfin : route = "finalize"
              · rw [if_pos hfin]; simp [traceOf]
              · rw [if_neg hfin]
                by_cases hsr : route = "search"
                · rw [if_pos hsr]
                  set s3 := applyPatch s2' (search_tool_node s2' (o.searchOutcome s2')) with hs3
                  have h3 : s3.search_results.getD "" ≠ "" := by
                    rw [hs3]
                    cases hoc : o.searchOutcome s2' with
                    | error e =>
                        show (some "Search unavailable" : Option String).getD "" ≠ ""
                        decide
                    | ok l =>
                        have hl : l ≠ [] := hor s2' l hoc
                        show (some (format_search_results l) : Option String).getD "" ≠ ""
                        simpa using format_search_results_ne_empty hl
                  rw [traceOf_prepend, List.count_append, runAux_no_search o fuel s3 h3]
                  decide
                · rw [if_neg hsr]
                  cases hrefl : reflection_node s2' with
                  | error e => simp [traceOf]
                  | ok p2 =>
                      obtain ⟨l, rfl⟩ := reflection_patch_shape hrefl
                      dsimp only
                      set s3 := applyPatch s2' { reflections := some l } with hs3
                      have h3 : s3.search_results = none := by
                        have : s3.search_results = s2'.search_results := by rw [hs3]; rfl
                        rw [this, h2]
                      have := ih s3 h3
                      rw [traceOf_prepend, List.count_append]
                      have hpre : List.count "search" ["generate_answer", "evaluate", "reflect"] = 0 := by decide
                      omega

/-! ### Claim C5: search executes at most once -/

/-- C5 (counterexample): a run in which the first search returns zero
results stores the *empty* string, which the router treats as unset, so
`search` executes twice even though `search_results` was set in
between.  The claim as stated ("at most once ... set to any value") is
therefore false. -/
theorem c5_search_twice_counterexample :
    ∃ s tr, runWorkflow oEmptySearch 5 (initState "q" 3) = .ok s tr
      ∧ tr.count "search" = 2 := by
  exact ⟨_, _, rfl, by decide⟩

/-- C5 (amended): once `search_results` has been set to any *non-empty*
value - the failure sentinel included - the router never again selects
`search` (first conjunct: a run from such a state contains no search
step at all); consequently, in every run whose search invocations
either raise or return at least one result, the search step executes at
most once.  An empty result list stores the empty string, which the
router treats as unset, and search may then repeat. -/
theorem c5_search_at_most_once :
    ∀ o : Oracles,
      (∀ (fuel : Nat) (s : QAState), s.search_results.getD "" ≠ "" →
        (traceOf (runAux o fuel s)).count "search" = 0)
      ∧ ((∀ s l, o.searchOutcome s = .ok l → l ≠ []) →
        ∀ (fuel : Nat) (s : QAState), s.search_results = none →
          (traceOf (runAux o fuel s)).count "search" ≤ 1) := by
  intro o
  exact ⟨runAux_no_search o, fun hor => runAux_search_le_one o hor⟩

/-- C5 (witness): with a collaborator returning one result the run
searches at most once; and from a state already carrying the failure
sentinel no search happens at all. -/
theorem c5_search_at_most_once_witness :
    (traceOf (runAux oOneResult 6 (initState "q" 3))).count "search" ≤ 1
    ∧ (traceOf (runAux oOneResult 6
        { search_results := some "Search unavailable" })).count "search" = 0 := by
  constructor
  · refine (c5_search_at_most_once oOneResult).2 ?_ 6 (initState "q" 3) rfl
    intro s l h
    cases h
    simp
  · exact (c5_search_at_most_once oOneResult).1 6 _ (by decide)

/-! ### Claim C8: session store -/

theorem mem_insertDesc {x z : Session} {l : List Session} (h : z ∈ insertDesc x l) :
    z = x ∨ z ∈ l := by
  induction l with
  | nil => simpa [insertDesc] using h
  | cons y ys ih =>
      unfold insertDesc at h
      by_cases hc : tsGe x y
      · rw [if_pos hc] at h
        rcases List.mem_cons.mp h with h | h
        · exact Or.inl h
        · exact Or.inr h
      · rw [if_neg hc] at h
        rcases List.mem_cons.mp h with h | h
        · exact Or.inr (by simp [h])
        · rcases ih h with h | h
          · exact Or.inl h
          · exact Or.inr (List.mem_cons_of_mem _ h)

theorem pairwise_insertDesc {x : Session} {l : List Session} (h : l.Pairwise tsGe) :
    (insertDesc x l).Pairwise tsGe := by
  induction l with
  | nil => simp [insertDesc]
  | cons y ys ih =>
      rcases List.pairwise_cons.mp h with ⟨hy, hys⟩
      unfold insertDesc
      by_cases hc : tsGe x y
      · rw [if_pos hc]
        refine List.pairwise_cons.mpr ⟨?_, h⟩
        intro z hz
        rcases List.mem_cons.mp hz with rfl | hz
        · exact hc
        · exact le_trans (hy z hz) hc
      · rw [if_neg hc]
        refine List.pairwise_cons.mpr ⟨?_, ih hys⟩
        intro z hz
        rcases mem_insertDesc hz with rfl | hz
        · exact le_of_not_le hc
        · exact hy z hz

theorem sortDesc_pairwise : ∀ l : List Session, (sortDesc l).Pairwise tsGe
  | [] => List.Pairwise.nil
  | _ :: xs => pairwise_insertDesc (sortDesc_pairwise xs)

theorem log_state_singleton {m m2 : MemoryManager} {st : Session} {sid now q : String}
    (hs : m.sessions = [st]) (hid : st.session_id = sid) (hq : st.question = some q)
    (ht : st.timestamp = some now) (hc : m.current_session_id = some sid)
    {nowE node : String} {stq : QAState}
    (h : log_state m nowE node stq = .ok m2) :
    ∃ st2, m2.sessions = [st2] ∧ st2.session_id = sid ∧ st2.question = some q
      ∧ st2.timestamp = some now ∧ m2.current_session_id = some sid := by
  unfold log_state at h
  rw [hc] at h
  dsimp only at h
  have hload : loadSession m.sessions sid = st := by
    rw [hs]
    unfold loadSession
    simp [List.find?, hid]
  rw [hload, hs] at h
  cases hsc : snapshotScore stq with
  | error er => rw [hsc] at h; cases h
  | ok sc =>
      rw [hsc] at h
      dsimp only at h
      simp only [saveSession, eq_self_iff_true, if_true] at h
      cases h
      exact ⟨_, rfl, hid, hq, ht, rfl⟩

theorem logAll_singleton {sid now q : String} :
    ∀ (logs : List (String × String × QAState)) (m : MemoryManager) (st : Session),
      m.sessions = [st] → st.session_id = sid → st.question = some q →
      st.timestamp = some now → m.current_session_id = some sid →
      ∀ m2, logAll m logs = .ok m2 →
      ∃ st2, m2.sessions = [st2] ∧ st2.session_id = sid ∧ st2.question = some q
        ∧ st2.timestamp = some now ∧ m2.current_session_id = some sid := by
  intro logs
  induction logs with
  | nil =>
      intro m st hs hid hq ht hc m2 h
      cases h
      exact ⟨st, hs, hid, hq, ht, hc⟩
  | cons e rest ih =>
      intro m st hs hid hq ht hc m2 h
      unfold logAll at h
      cases hlog : log_state m e.1 e.2.1 e.2.2 with
      | error er => rw [hlog] at h; cases h
      | ok mmid =>
          rw [hlog] at h
          obtain ⟨st2, hs2, hid2, hq2, ht2, hc2⟩ :=
            log_state_singleton hs hid hq ht hc hlog
          exact ih mmid st2 hs2 hid2 hq2 ht2 hc2 m2 h

theorem save_final_singleton {m : MemoryManager} {st : Session} {sid now q : String}
    (hs : m.sessions = [st]) (hid : st.session_id = sid) (hq : st.question = some q)
    (ht : st.timestamp = some now) (hc : m.current_session_id = some sid)
    (ans : String) (full : QAState) :
    ∃ st2, (save_final_answer m ans full).sessions = [st2] ∧ st2.question = some q
      ∧ st2.final_answer = some ans ∧ st2.timestamp = some now := by
  unfold save_final_answer
  rw [hc]
  dsimp only
  have hload : loadSession m.sessions sid = st := by
    rw [hs]
    unfold loadSession
    simp [List.find?, hid]
  rw [hload, hs]
  simp only [saveSession, eq_self_iff_true, if_true]
  exact ⟨_, rfl, hq, rfl, ht⟩

theorem history_singleton {m : MemoryManager} {st : Session} (hs : m.sessions = [st])
    (hts : st.timestamp.isSome = true) :
    get_session_history m 1 = .ok [st] := by
  unfold get_session_history
  rw [hs]
  simp [hts, sortDesc, insertDesc]

/-- C8: SessionStore round-trip and ordering.  First conjunct: from an
empty store, after `create`, any successful non-empty sequence of
`log_state` calls and a `save_final_answer`, `get_session_history 1`
returns exactly one session whose question and final answer match what
was written.  Second conjunct: every successful `get_session_history`
result is sorted by timestamp descending and has length at most the
requested limit. -/
theorem c8_session_store_roundtrip :
    (∀ (sid now q ans : String) (logs : List (String × String × QAState)) (full : QAState)
        (m2 : MemoryManager),
      logs ≠ [] →
      logAll (create_session {} sid now q) logs = .ok m2 →
      ∃ sess, get_session_history (save_final_answer m2 ans full) 1 = .ok [sess]
        ∧ sess.question = some q ∧ sess.final_answer = some ans)
    ∧ (∀ (m : MemoryManager) (limit : Nat) (l : List Session),
        get_session_history m limit = .ok l →
        l.Pairwise tsGe ∧ l.length ≤ limit) := by
  constructor
  · intro sid now q ans logs full m2 _ hlog
    obtain ⟨st2, hs2, hid2, hq2, ht2, hc2⟩ :=
      logAll_singleton logs (create_session {} sid now q) _ rfl rfl rfl rfl rfl m2 hlog
    obtain ⟨st3, hs3, hq3, hf3, ht3⟩ :=
      save_final_singleton hs2 hid2 hq2 ht2 hc2 ans full
    refine ⟨st3, ?_, hq3, hf3⟩
    exact history_singleton hs3 (by rw [ht3]; rfl)
  · intro m limit l h
    unfold get_session_history at h
    split at h
    · cases h
      constructor
      · exact List.Pairwise.sublist (List.take_sublist _ _) (sortDesc_pairwise _)
      · exact List.length_take_le _ _
    · cases h

/-- C8 (witness): a concrete create / one log / save-final round trip
retrieved by `get_session_history 1`. -/
theorem c8_session_store_roundtrip_witness :
    ∃ m2 : MemoryManager,
      logAll (create_session {} "s1" "t0" "Q") [("t1", "generate_answer", stLogW)] = .ok m2
      ∧ ∃ sess, get_session_history (save_final_answer m2 "A" {}) 1 = .ok [sess]
          ∧ sess.question = some "Q" ∧ sess.final_answer = some "A" := by
  refine ⟨_, rfl, ?_⟩
  exact c8_session_store_roundtrip.1 "s1" "t0" "Q" "A" [("t1", "generate_answer", stLogW)]
    {} _ (by simp) rfl

/-! ### Claim C7: embedded-record round trip -/

theorem toList_app (a b : String) : (a ++ b).toList = a.toList ++ b.toList :=
  String.data_append a b

theorem mk_embed (mid : String) :
    String.mk ('\x7b' :: mid.toList ++ ['\x7d']) = "\x7b" ++ mid ++ "\x7d" := by
  cases mid with
  | mk data =>
      show String.mk _ = String.mk _
      congr 1

theorem toList_embed (pre mid suf : String) :
    (pre ++ ("\x7b" ++ mid ++ "\x7d") ++ suf).toList
      = pre.toList ++ '\x7b' :: mid.toList ++ '\x7d' :: suf.toList := by
  rw [toList_app, toList_app, toList_app, toList_app]
  simp

theorem findFencedL_none : ∀ cs : List Char, (∀ c ∈ cs, c ≠ btick) → findFencedL cs = none := by
  intro cs
  induction cs with
  | nil => intro _; rfl
  | cons c rest ih =>
      intro h
      have hc : c ≠ btick := h c (List.mem_cons_self _ _)
      unfold findFencedL tryFenceAt
      have hpre : fenceMarker.isPrefixOf (c :: rest) = false := by
        rw [show fenceMarker = btick :: "``".toList from rfl]
        show (btick == c && ("``".toList).isPrefixOf rest) = false
        rw [beq_eq_false_iff_ne.mpr (Ne.symm hc)]
        rfl
      rw [hpre]
      simp only [Bool.false_eq_true, if_false]
      exact ih (fun x hx => h x (List.mem_cons_of_mem _ hx))

theorem takeWhile_all_append {p : Char → Bool} :
    ∀ (l : List Char) (x : Char) (rest : List Char),
      (∀ c ∈ l, p c = true) → p x = false →
      (l ++ x :: rest).takeWhile p = l ∧ (l ++ x :: rest).dropWhile p = x :: rest := by
  intro l
  induction l with
  | nil =>
      intro x rest _ hx
      constructor
      · show (x :: rest).takeWhile p = []
        simp [List.takeWhile_cons, hx]
      · show (x :: rest).dropWhile p = x :: rest
        simp [List.dropWhile_cons, hx]
  | cons c cs ih =>
      intro x rest hl hx
      have hc : p c = true := hl c (List.mem_cons_self _ _)
      obtain ⟨h1, h2⟩ := ih x rest (fun y hy => hl y (List.mem_cons_of_mem _ hy)) hx
      constructor
      · show ((c :: (cs ++ x :: rest)).takeWhile p) = c :: cs
        simp [List.takeWhile_cons, hc, h1]
      · show ((c :: (cs ++ x :: rest)).dropWhile p) = x :: rest
        simp [List.dropWhile_cons, hc, h2]

theorem balScan_flat (body rest : List Char) (hb : ∀ c ∈ body, nonBrace c = true)
    (fuel : Nat) : balScan (fuel + 1) (body ++ '\x7d' :: rest) = some (body, rest) := by
  obtain ⟨h1, h2⟩ := takeWhile_all_append body '\x7d' rest hb (by decide)
  unfold balScan
  rw [h1, h2]
  rfl

theorem findBracesL_append : ∀ (pre body rest : List Char),
    (∀ c ∈ pre, c ≠ '\x7b') → (∀ c ∈ body, nonBrace c = true) →
    findBracesL (pre ++ '\x7b' :: body ++ '\x7d' :: rest) =
      some (String.mk ('\x7b' :: body ++ ['\x7d'])) := by
  intro pre
  induction pre with
  | nil =>
      intro body rest _ hb
      show findBracesL ('\x7b' :: (body ++ '\x7d' :: rest)) = _
      unfold findBracesL
      rw [if_pos rfl, balScan_flat body rest hb]
  | cons c cs ih =>
      intro body rest hpre hb
      have hc : c ≠ '\x7b' := hpre c (List.mem_cons_self _ _)
      show findBracesL (c :: (cs ++ '\x7b' :: body ++ '\x7d' :: rest)) = _
      unfold findBracesL
      rw [if_neg hc]
      exact ih body rest (fun y hy => hpre y (List.mem_cons_of_mem _ hy)) hb

set_option maxRecDepth 8000 in
theorem jsonLoads_evalRecord (n : Nat) (b : Bool) (h1 : 1 ≤ n) (h2 : n ≤ 10) :
    jsonLoads (evalRecordText n b) = some (.jobj
      [("score", .jnum (n : Int)), ("is_acceptable", .jbool b),
       ("strengths", .jarr [.jstr "Answer provided"]),
       ("weaknesses", .jarr []), ("suggestions", .jarr []),
       ("needs_search", .jbool false)]) := by
  interval_cases n <;> cases b <;> rfl

set_option maxRecDepth 8000 in
theorem evalRecordBody_chars (n : Nat) (b : Bool) (h1 : 1 ≤ n) (h2 : n ≤ 10) :
    ∀ c ∈ (evalRecordBody n b).toList, nonBrace c = true ∧ c ≠ btick := by
  interval_cases n <;> cases b <;> decide

/-- C7 (counterexample): with an empty brace pair in the surrounding
text before the embedded record, the brace regex matches `\x7b\x7d`
first; the extractor returns the empty record, the embedded score and
acceptability are lost, and the evaluate step falls back.  The claim,
quantified over *arbitrary* surrounding text, is therefore false. -/
theorem c7_roundtrip_counterexample :
    extract_json_from_text c7Text = some (.jobj [])
    ∧ dget [] "score" = none
    ∧ evaluate_answer_node { draft_answer := some "", iteration_count := some 1 } c7Text =
        .ok { evaluation := some (fallback_evaluation
          { draft_answer := some "", iteration_count := some 1 }) } := by
  exact ⟨rfl, rfl, rfl⟩

/-- C7 (amended): for every well-formed evaluation record (score 1-10,
boolean acceptability, rubric lists, no inner braces or backticks)
embedded in surrounding text whose prefix contains no opening brace and
no backtick and whose suffix contains no backtick, the parser extracts
a record whose `score` and `is_acceptable` equal the embedded values,
and the evaluate step stores that record. -/
theorem c7_embedded_record_roundtrip :
    ∀ (n : Nat) (b : Bool) (pre suf : String),
      1 ≤ n → n ≤ 10 →
      (∀ c ∈ pre.toList, c ≠ '\x7b' ∧ c ≠ btick) →
      (∀ c ∈ suf.toList, c ≠ btick) →
      ∃ d, extract_json_from_text (pre ++ evalRecordText n b ++ suf) = some (.jobj d)
        ∧ dget d "score" = some (.jnum (n : Int))
        ∧ dget d "is_acceptable" = some (.jbool b)
        ∧ ∀ st : QAState, evaluate_answer_node st (pre ++ evalRecordText n b ++ suf) =
            .ok { evaluation := some (.jobj d) } := by
  intro n b pre suf h1 h2 hpre hsuf
  have hchars := evalRecordBody_chars n b h1 h2
  have hload := jsonLoads_evalRecord n b h1 h2
  have hrw : evalRecordText n b = "\x7b" ++ evalRecordBody n b ++ "\x7d" := rfl
  have hno : ∀ c ∈ pre.toList ++ '\x7b' :: (evalRecordBody n b).toList ++ '\x7d' :: suf.toList,
      c ≠ btick := by
    intro c hc
    rcases List.mem_append.mp hc with h | h
    · rcases List.mem_append.mp h with h | h
      · exact (hpre c h).2
      · rcases List.mem_cons.mp h with rfl | h
        · decide
        · exact (hchars c h).2
    · rcases List.mem_cons.mp h with rfl | h
      · decide
      · exact hsuf c h
  have hext : extract_json_from_text (pre ++ evalRecordText n b ++ suf) = some (.jobj
      [("score", .jnum (n : Int)), ("is_acceptable", .jbool b),
       ("strengths", .jarr [.jstr "Answer provided"]),
       ("weaknesses", .jarr []), ("suggestions", .jarr []),
       ("needs_search", .jbool false)]) := by
    have hbr := findBracesL_append pre.toList (evalRecordBody n b).toList suf.toList
      (fun c hc => (hpre c hc).1) (fun c hc => (hchars c hc).1)
    unfold extract_json_from_text
    rw [hrw, toList_embed]
    rw [findFencedL_none _ hno]
    simp only [Option.bind, hbr]
    rw [mk_embed, ← hrw, hload]
  exact ⟨_, hext, rfl, rfl, fun st => evaluate_stores_keyed st _ _ hext rfl rfl⟩

set_option maxRecDepth 8000 in
/-- C7 (witness): the amended round-trip at score 8, acceptable, with
plain-prose prefix and suffix. -/
theorem c7_embedded_record_roundtrip_witness :
    ∃ d, extract_json_from_text
        ("Here is my evaluation: " ++ evalRecordText 8 true ++ " Done.") = some (.jobj d)
      ∧ dget d "score" = some (.jnum 8)
      ∧ dget d "is_acceptable" = some (.jbool true)
      ∧ ∀ st : QAState, evaluate_answer_node st
            ("Here is my evaluation: " ++ evalRecordText 8 true ++ " Done.") =
          .ok { evaluation := some (.jobj d) } := by
  exact c7_embedded_record_roundtrip 8 true "Here is my evaluation: " " Done."
    (by norm_num) (by norm_num) (by decide) (by decide)
